import Mathlib

/-!
Verification of the time-block scheduling engine of the TimeLab frontend
(`src/pages/TimeBlocking.tsx`), shallowly embedded over `ℚ`.

JavaScript numeric primitives used by the source are modelled exactly on
exact rational inputs:
* `x % 1` (remainder, sign of the dividend) as `jsMod1`;
* `Math.floor` as `Int.floor`;
* `Math.round` (round half toward +∞) as `jsRound`;
* `String.prototype.padStart(2, "0")` as `padStart2`.

The `TimeBlock` record of `services/api` carries additional metadata
fields (`blockDate`, `createdAt`, `updatedAt`) that the scheduling logic
never reads or writes; they are omitted from the embedding.
-/

namespace TimeBlocking

/-- JavaScript truncation toward zero (used by the `%` operator). -/
def ratTrunc (q : ℚ) : ℤ := if 0 ≤ q then ⌊q⌋ else ⌈q⌉

/-- JavaScript `q % 1`: remainder with the sign of the dividend. -/
def jsMod1 (q : ℚ) : ℚ := q - ratTrunc q

/-- JavaScript `Math.round`: round half toward positive infinity. -/
def jsRound (q : ℚ) : ℤ := ⌊q + 1/2⌋

/-- `snapToInterval` (TimeBlocking.tsx line 25):
`Math.floor(time) + Math.round(((time % 1) * 60) / interval) * interval / 60`. -/
def snapToInterval (time interval : ℚ) : ℚ :=
  let minutes : ℚ := jsMod1 time * 60
  let snappedMinutes : ℚ := (jsRound (minutes / interval) : ℚ) * interval
  (⌊time⌋ : ℚ) + snappedMinutes / 60

/-- The spec's own description of `snap` (§4.1), written with the genuine
integer/fractional decomposition `h = ⌊h⌋ + (h - ⌊h⌋)`; refinement
comparison definition for `snapToInterval`. -/
def snapSpec (h m : ℚ) : ℚ :=
  (⌊h⌋ : ℚ) + ((jsRound ((h - (⌊h⌋ : ℚ)) * 60 / m) : ℚ) * m) / 60

/-- JavaScript `s.padStart(2, "0")`. -/
def padStart2 (s : String) : String :=
  if s.length < 2 then String.mk (List.replicate (2 - s.length) '0') ++ s else s

/-- `formatTime` (TimeBlocking.tsx line 31): zero-padded hour and rounded
minute, with no carry of a 60-minute field into the hour. -/
def formatTime (hour : ℚ) : String :=
  padStart2 (toString ⌊hour⌋) ++ ":" ++ padStart2 (toString (jsRound (jsMod1 hour * 60)))

/-- The task record (`services/api` interface `Task`). -/
structure Task where
  id : String
  title : String
  duration : ℚ
  color : String
deriving DecidableEq

/-- A placed block (`services/api` interface `TimeBlock`, scheduling fields). -/
structure TimeBlock where
  id : String
  task : Task
  startHour : ℚ
  endHour : ℚ
  completed : Bool
deriving DecidableEq

/-- The JS condition `excludeId && block.id === excludeId`: an absent or
empty (falsy) `excludeId` excludes nothing. -/
def matchesExclude (excludeId : Option String) (block : TimeBlock) : Bool :=
  match excludeId with
  | none => false
  | some e => decide (e ≠ "") && (block.id == e)

/-- `hasConflict` (TimeBlocking.tsx line 241): some block, other than the
excluded one, overlaps `[startHour, endHour)` with strict inequalities. -/
def hasConflict (timeBlocks : List TimeBlock) (startHour endHour : ℚ)
    (excludeId : Option String) : Bool :=
  timeBlocks.any fun block =>
    if matchesExclude excludeId block then false
    else decide (startHour < block.endHour) && decide (endHour > block.startHour)

/-- `calculateDropPosition` (TimeBlocking.tsx line 248), with the container
geometry passed explicitly (`HOUR_HEIGHT = 80`, `SNAP_INTERVAL = 15`). -/
def calculateDropPosition (clientY rectTop scrollTop taskDuration : ℚ) :
    Option (ℚ × ℚ) :=
  let relativeY := clientY - rectTop + scrollTop
  let hourDecimal := 8 + relativeY / 80
  let snappedStart := snapToInterval hourDecimal 15
  let duration := taskDuration / 60
  let snappedEnd := snappedStart + duration
  if snappedStart < 8 ∨ snappedEnd > 21 then none
  else some (snappedStart, snappedEnd)

/-- The in-memory schedule state: task pool, placed blocks, XP accumulator. -/
structure ScheduleState where
  tasks : List Task
  timeBlocks : List TimeBlock
  xp : ℤ
deriving DecidableEq

/-- Outcome of the two guards at the head of `addTimeBlock`. -/
inductive PlacementCheck where
  | outOfBounds
  | conflict
  | ok
deriving DecidableEq

/-- The validation `addTimeBlock` (TimeBlocking.tsx line 291) performs
before any state change: `if (endHour > 21) ...; if (hasConflict(...)) ...`. -/
def addTimeBlockCheck (timeBlocks : List TimeBlock) (startHour endHour : ℚ) :
    PlacementCheck :=
  if 21 < endHour then .outOfBounds
  else if hasConflict timeBlocks startHour endHour none then .conflict
  else .ok

/-- Modelled from the spec: the remote persistence collaborator's
`createBlock` (§6, realized by `timeBlockAPI.create`; the Laravel backend
itself is not part of this repository). It assigns the server-side block
and task ids and echoes the submitted display fields and interval, with
`completed = false`. -/
def serverCreateBlock (blockId taskId title color : String)
    (duration startHour endHour : ℚ) : TimeBlock :=
  { id := blockId
    task := { id := taskId, title := title, duration := duration, color := color }
    startHour := startHour
    endHour := endHour
    completed := false }

/-- `addTimeBlock` (TimeBlocking.tsx line 291) as a state transition: on a
passed validation, `createTimeBlock` appends the block returned by the
server and the placed task is filtered out of the pool. -/
def addTimeBlock (st : ScheduleState) (task : Task) (startHour endHour : ℚ)
    (freshBlockId freshTaskId : String) : ScheduleState :=
  match addTimeBlockCheck st.timeBlocks startHour endHour with
  | .ok =>
      { st with
        timeBlocks := st.timeBlocks ++
          [serverCreateBlock freshBlockId freshTaskId task.title task.color
            task.duration startHour endHour]
        tasks := st.tasks.filter fun t => t.id != task.id }
  | _ => st

/-- `deleteTimeBlock` (TimeBlocking.tsx line 201) as a state transition:
no-op when the id is absent; otherwise drop the block, append its embedded
task back to the pool, and floor the XP decrement at 0 for a completed
block. -/
def deleteTimeBlock (st : ScheduleState) (id : String) : ScheduleState :=
  match st.timeBlocks.find? (fun b => b.id == id) with
  | none => st
  | some block =>
      { tasks := st.tasks ++ [block.task]
        timeBlocks := st.timeBlocks.filter fun b => b.id != id
        xp := if block.completed then max 0 (st.xp - 50) else st.xp }

/-- `completeTimeBlock` (TimeBlocking.tsx line 175) as a state transition:
the block returned by `markComplete` (the block with `completed = true`)
replaces every block with the given id, and XP is incremented by 50 —
with no guard on the block's prior `completed` flag. -/
def completeTimeBlock (st : ScheduleState) (id : String) : ScheduleState :=
  { st with
    timeBlocks := st.timeBlocks.map fun b =>
      if b.id == id then { b with completed := true } else b
    xp := st.xp + 50 }

/-- `completeBlock` (TimeBlocking.tsx line 1522, the duplicated guarded
implementation): returns unchanged unless the block exists with
`completed = false`. -/
def completeBlock (st : ScheduleState) (blockId : String) : ScheduleState :=
  match st.timeBlocks.find? (fun b => b.id == blockId) with
  | none => st
  | some block =>
      if block.completed then st
      else
        { st with
          timeBlocks := st.timeBlocks.map fun b =>
            if b.id == blockId then { b with completed := true } else b
          xp := st.xp + 50 }

/-- `totalBlocks` (TimeBlocking.tsx line 131). -/
def totalBlocks (st : ScheduleState) : ℕ := st.timeBlocks.length

/-- `completedBlocks` (TimeBlocking.tsx line 132). -/
def completedBlocks (st : ScheduleState) : ℕ :=
  (st.timeBlocks.filter fun b => b.completed).length

/-- `progressPercentage` (TimeBlocking.tsx line 133). -/
def progressPercentage (st : ScheduleState) : ℚ :=
  if 0 < totalBlocks st then
    (completedBlocks st : ℚ) / (totalBlocks st : ℚ) * 100
  else 0

/-- `isPerfectDay` (TimeBlocking.tsx line 134). -/
def isPerfectDay (st : ScheduleState) : Bool :=
  decide (0 < totalBlocks st) && (completedBlocks st == totalBlocks st)

/-! ### Arithmetic facts about the JS primitives -/

theorem ratTrunc_of_nonneg {q : ℚ} (h : 0 ≤ q) : ratTrunc q = ⌊q⌋ := if_pos h

theorem jsMod1_of_nonneg {q : ℚ} (h : 0 ≤ q) : jsMod1 q = Int.fract q := by
  rw [jsMod1, ratTrunc_of_nonneg h, Int.self_sub_floor]

theorem jsRound_intCast (k : ℤ) : jsRound (k : ℚ) = k := by
  have h0 : ⌊(1/2 : ℚ)⌋ = 0 := by
    rw [Int.floor_eq_zero_iff]
    constructor <;> norm_num
  rw [jsRound, add_comm, Int.floor_add_int, h0, zero_add]

theorem jsRound_nonneg {q : ℚ} (h : 0 ≤ q) : 0 ≤ jsRound q :=
  Int.floor_nonneg.mpr (by linarith)

theorem jsRound_le_of_lt {q : ℚ} {k : ℤ} (h : q < (k : ℚ)) : jsRound q ≤ k := by
  have hk : jsRound q < k + 1 := by
    rw [jsRound, Int.floor_lt]
    push_cast
    linarith
  omega

theorem snapToInterval_grid (t : ℚ) :
    ∃ k : ℤ, snapToInterval t 15 = (k : ℚ) / 4 := by
  refine ⟨4 * ⌊t⌋ + jsRound (jsMod1 t * 60 / 15), ?_⟩
  simp only [snapToInterval]
  push_cast
  ring

theorem snapToInterval15_of_nonneg {t : ℚ} (h : 0 ≤ t) :
    snapToInterval t 15 = (⌊t⌋ : ℚ) + (jsRound (Int.fract t * 4) : ℚ) / 4 := by
  simp only [snapToInterval, jsMod1_of_nonneg h]
  rw [show Int.fract t * 60 / 15 = Int.fract t * 4 by ring]
  ring

theorem snapToInterval15_fixed (n r : ℤ) (hn : 0 ≤ n) (hr0 : 0 ≤ r) (hr3 : r ≤ 3) :
    snapToInterval ((n : ℚ) + (r : ℚ) / 4) 15 = (n : ℚ) + (r : ℚ) / 4 := by
  have hrq0 : (0:ℚ) ≤ (r : ℚ) := by exact_mod_cast hr0
  have hrq3 : (r : ℚ) ≤ 3 := by exact_mod_cast hr3
  have hnq : (0:ℚ) ≤ (n : ℚ) := by exact_mod_cast hn
  have hq : (0:ℚ) ≤ (n : ℚ) + (r : ℚ) / 4 := by linarith
  have hfr : Int.fract ((n : ℚ) + (r : ℚ) / 4) = (r : ℚ) / 4 := by
    rw [Int.fract_int_add, Int.fract_eq_self.mpr ⟨by linarith, by linarith⟩]
  have hfl : ⌊(n : ℚ) + (r : ℚ) / 4⌋ = n := by
    rw [Int.floor_int_add]
    have : ⌊(r : ℚ) / 4⌋ = 0 := by
      rw [Int.floor_eq_zero_iff]
      constructor <;> [linarith; linarith]
    omega
  rw [snapToInterval15_of_nonneg hq, hfr, hfl,
    show (r : ℚ) / 4 * 4 = (r : ℚ) by ring, jsRound_intCast]

theorem snapToInterval15_idem {t : ℚ} (h : 0 ≤ t) :
    snapToInterval (snapToInterval t 15) 15 = snapToInterval t 15 := by
  rw [snapToInterval15_of_nonneg h]
  have hf0 : (0:ℚ) ≤ Int.fract t * 4 := by
    have := Int.fract_nonneg t
    linarith
  have hf4 : Int.fract t * 4 < ((4:ℤ) : ℚ) := by
    have := Int.fract_lt_one t
    push_cast
    linarith
  have hr0 : 0 ≤ jsRound (Int.fract t * 4) := jsRound_nonneg hf0
  have hr4 : jsRound (Int.fract t * 4) ≤ 4 := jsRound_le_of_lt hf4
  have hn : 0 ≤ ⌊t⌋ := Int.floor_nonneg.mpr h
  by_cases hc : jsRound (Int.fract t * 4) ≤ 3
  · exact snapToInterval15_fixed ⌊t⌋ _ hn hr0 hc
  · have hreq : jsRound (Int.fract t * 4) = 4 := by omega
    rw [hreq]
    have hcast : (⌊t⌋ : ℚ) + ((4:ℤ) : ℚ) / 4 = ((⌊t⌋ + 1 : ℤ) : ℚ) + ((0:ℤ) : ℚ) / 4 := by
      push_cast
      ring
    rw [hcast, snapToInterval15_fixed (⌊t⌋ + 1) 0 (by omega) le_rfl (by norm_num)]

theorem snapToInterval_eq_snapSpec {h : ℚ} (h0 : 0 ≤ h) (m : ℚ) :
    snapToInterval h m = snapSpec h m := by
  simp only [snapToInterval, snapSpec, jsMod1_of_nonneg h0, Int.fract]

/-! ### State-transition helper lemmas -/

theorem countP_not_bool {α : Type} (l : List α) (p : α → Bool) :
    (l.countP fun a => !(p a)) = l.countP fun a => ¬(p a = true) := by
  induction l with
  | nil => rfl
  | cons a l ih =>
      rw [List.countP_cons, List.countP_cons, ih]
      cases hpa : p a <;> simp

theorem length_filter_not_of_countP_eq_one {α : Type} (l : List α) (p : α → Bool)
    (h : l.countP p = 1) : (l.filter fun a => !(p a)).length + 1 = l.length := by
  rw [← List.countP_eq_length_filter, countP_not_bool,
    List.length_eq_countP_add_countP (p := p) (l := l), h]
  omega

theorem deleteTimeBlock_of_none (st : ScheduleState) (id : String)
    (h : st.timeBlocks.find? (fun b => b.id == id) = none) :
    deleteTimeBlock st id = st := by
  rw [deleteTimeBlock, h]

theorem deleteTimeBlock_of_find (st : ScheduleState) (id : String) (block : TimeBlock)
    (h : st.timeBlocks.find? (fun b => b.id == id) = some block) :
    deleteTimeBlock st id =
      { tasks := st.tasks ++ [block.task]
        timeBlocks := st.timeBlocks.filter fun b => b.id != id
        xp := if block.completed then max 0 (st.xp - 50) else st.xp } := by
  rw [deleteTimeBlock, h]

theorem addTimeBlock_of_ok (st : ScheduleState) (t : Task) (s e : ℚ) (bId tId : String)
    (h : addTimeBlockCheck st.timeBlocks s e = .ok) :
    addTimeBlock st t s e bId tId =
      { st with
        timeBlocks := st.timeBlocks ++
          [serverCreateBlock bId tId t.title t.color t.duration s e]
        tasks := st.tasks.filter fun x => x.id != t.id } := by
  rw [addTimeBlock, h]

theorem completedBlocks_eq_iff (st : ScheduleState) :
    completedBlocks st = totalBlocks st ↔ ∀ b ∈ st.timeBlocks, b.completed = true := by
  rw [completedBlocks, totalBlocks, ← List.countP_eq_length_filter]
  exact List.countP_eq_length

/-! ### Claim theorems -/

theorem conflict_pred_iff (excl : Option String) (b : TimeBlock) (s e : ℚ) :
    ((if matchesExclude excl b then false
      else decide (s < b.endHour) && decide (e > b.startHour)) = true) ↔
      matchesExclude excl b = false ∧ s < b.endHour ∧ e > b.startHour := by
  cases hm : matchesExclude excl b <;> simp [hm]

/-- C1: `hasConflict` returns true iff some block not matching `excludeId`
satisfies `candidateStart < block.endHour` and `candidateEnd > block.startHour`;
touching or disjoint intervals never conflict. -/
theorem hasConflict_spec :
    (∀ (blocks : List TimeBlock) (s e : ℚ) (excl : Option String),
      hasConflict blocks s e excl = true ↔
        ∃ b ∈ blocks, matchesExclude excl b = false ∧ s < b.endHour ∧ e > b.startHour) ∧
    (∀ (b : TimeBlock) (s e : ℚ), e ≤ b.startHour ∨ b.endHour ≤ s →
      hasConflict [b] s e none = false) := by
  constructor
  · intro blocks s e excl
    rw [hasConflict, List.any_eq_true]
    constructor
    · rintro ⟨b, hb, hp⟩
      exact ⟨b, hb, (conflict_pred_iff excl b s e).mp hp⟩
    · rintro ⟨b, hb, hp⟩
      exact ⟨b, hb, (conflict_pred_iff excl b s e).mpr hp⟩
  · intro b s e hdisj
    rw [hasConflict]
    simp only [List.any_cons, List.any_nil, Bool.or_false]
    rw [show matchesExclude none b = false from rfl, if_neg (by simp)]
    rcases hdisj with hd | hd
    · simp only [Bool.and_eq_false_iff]
      right
      simpa using not_lt.mpr hd
    · simp only [Bool.and_eq_false_iff]
      left
      simpa using not_lt.mpr hd

/-- C1 witness: a candidate ending exactly where the block starts is not a
conflict. -/
theorem hasConflict_spec_witness :
    hasConflict [⟨"b1", ⟨"t1", "A", 60, "c"⟩, 10, 11, false⟩] 9 10 none = false :=
  hasConflict_spec.2 ⟨"b1", ⟨"t1", "A", 60, "c"⟩, 10, 11, false⟩ 9 10
    (Or.inl (le_refl (10 : ℚ)))

/-- C2: `calculateDropPosition` either returns `null` or returns a target on
the 15-minute grid with `8 ≤ startHour`, `endHour ≤ 21` and
`endHour = startHour + durationMinutes/60`; a 90-minute task at snapped
start 20:00 yields `null`. -/
theorem calculateDropPosition_bounds :
    (∀ clientY rectTop scrollTop d : ℚ,
      calculateDropPosition clientY rectTop scrollTop d = none ∨
      ∃ s e, calculateDropPosition clientY rectTop scrollTop d = some (s, e) ∧
        8 ≤ s ∧ e ≤ 21 ∧ e = s + d / 60 ∧ ∃ k : ℤ, s = (k : ℚ) / 4) ∧
    calculateDropPosition 960 0 0 90 = none := by
  constructor
  · intro clientY rectTop scrollTop d
    by_cases hc : snapToInterval (8 + (clientY - rectTop + scrollTop) / 80) 15 < 8 ∨
        snapToInterval (8 + (clientY - rectTop + scrollTop) / 80) 15 + d / 60 > 21
    · left
      simp only [calculateDropPosition]
      rw [if_pos hc]
    · right
      push_neg at hc
      refine ⟨snapToInterval (8 + (clientY - rectTop + scrollTop) / 80) 15,
        snapToInterval (8 + (clientY - rectTop + scrollTop) / 80) 15 + d / 60,
        ?_, hc.1, hc.2, rfl, snapToInterval_grid _⟩
      simp only [calculateDropPosition]
      rw [if_neg (by push_neg; exact hc)]
  · with_unfolding_all decide

/-- C3 counterexample: on the negative input −0.3 (reachable, since the drop
handler snaps before checking bounds) the code's `(time % 1)` differs from
the spec's fractional part, so `snapToInterval` and the spec's description
disagree: −1.25 versus −0.25. -/
theorem snapToInterval_spec_counterexample :
    snapToInterval (-3/10) 15 = -5/4 ∧ snapSpec (-3/10) 15 = -1/4 ∧
      snapToInterval (-3/10) 15 ≠ snapSpec (-3/10) 15 := by
  refine ⟨?_, ?_, ?_⟩ <;> with_unfolding_all decide

/-- C3 (amended to nonnegative fractional hours): `snapToInterval` computes
exactly the spec's round-half-up minute snapping for every `h ≥ 0`;
`snap(9.42, 15) = 9.5`; a drop mapping to 9:07 with a 60-minute task yields
the block `[9.0, 10.0)`. -/
theorem snapToInterval_meets_spec :
    (∀ h m : ℚ, 0 ≤ h → snapToInterval h m = snapSpec h m) ∧
    snapToInterval (942/100) 15 = 19/2 ∧
    calculateDropPosition (268/3) 0 0 60 = some (9, 10) := by
  refine ⟨fun h m h0 => snapToInterval_eq_snapSpec h0 m, ?_, ?_⟩ <;>
    with_unfolding_all decide

/-- C3 witness: the spec description and the code agree at 9.42. -/
theorem snapToInterval_meets_spec_witness :
    (0:ℚ) ≤ 942/100 ∧ snapToInterval (942/100) 15 = snapSpec (942/100) 15 :=
  ⟨by norm_num, snapToInterval_meets_spec.1 (942/100) 15 (by norm_num)⟩

/-- C9 counterexample: on the negative input −0.25 the JS remainder makes
`snapToInterval` drift downward, so snapping twice differs from snapping
once: `snap(−0.25) = −1.25` but `snap(snap(−0.25)) = −2.25`. -/
theorem snapToInterval15_idem_counterexample :
    snapToInterval (snapToInterval (-1/4) 15) 15 ≠ snapToInterval (-1/4) 15 ∧
      snapToInterval (-1/4) 15 = -5/4 ∧ snapToInterval (-5/4) 15 = -9/4 := by
  refine ⟨?_, ?_, ?_⟩ <;> with_unfolding_all decide

/-- C9 (amended to nonnegative fractional hours): `snapToInterval · 15` is
idempotent on every `h ≥ 0`. -/
theorem snapToInterval15_idempotent :
    ∀ h : ℚ, 0 ≤ h → snapToInterval (snapToInterval h 15) 15 = snapToInterval h 15 :=
  fun _ h0 => snapToInterval15_idem h0

/-- C9 witness: idempotence at 9.42. -/
theorem snapToInterval15_idempotent_witness :
    (0:ℚ) ≤ 942/100 ∧
      snapToInterval (snapToInterval (942/100) 15) 15 = snapToInterval (942/100) 15 :=
  ⟨by norm_num, snapToInterval15_idempotent (942/100) (by norm_num)⟩

/-- C4 counterexample: a target entirely below the day window
(`startHour = 5 < 8`, `endHour = 6 ≤ 21`) passes `addTimeBlock`'s
validation — the placement proceeds instead of being rejected with
OUT_OF_BOUNDS, so the `startHour < 8` half of the drop-target bounds check
is not duplicated. -/
theorem addTimeBlock_no_lower_bound_check :
    addTimeBlockCheck [] 5 6 = PlacementCheck.ok ∧ (5:ℚ) < 8 ∧
      addTimeBlock ⟨[⟨"t1", "A", 60, "c"⟩], [], 0⟩ ⟨"t1", "A", 60, "c"⟩ 5 6 "b1" "s1" =
        ⟨[], [⟨"b1", ⟨"s1", "A", 60, "c"⟩, 5, 6, false⟩], 0⟩ := by
  refine ⟨?_, ?_, ?_⟩ <;> with_unfolding_all decide

/-- C4 (amended): before any state change `addTimeBlock` rejects, outright
and never clipped, exactly the targets with `endHour > 21`; the
`startHour ≥ 8` half of `calculateDropPosition`'s bounds check is not
duplicated. -/
theorem addTimeBlock_upper_bound_check :
    ∀ (st : ScheduleState) (t : Task) (s e : ℚ) (bId tId : String),
      (addTimeBlockCheck st.timeBlocks s e = PlacementCheck.outOfBounds ↔ 21 < e) ∧
      (21 < e → addTimeBlock st t s e bId tId = st) := by
  intro st t s e bId tId
  constructor
  · rw [addTimeBlockCheck]
    constructor
    · intro hr
      by_contra hlt
      rw [if_neg hlt] at hr
      cases hcc : hasConflict st.timeBlocks s e none <;> rw [hcc] at hr <;> simp at hr
    · intro hlt
      rw [if_pos hlt]
  · intro hlt
    rw [addTimeBlock, addTimeBlockCheck, if_pos hlt]

/-- C4 witness: a target ending at 21.5 is rejected with no state change. -/
theorem addTimeBlock_upper_bound_check_witness :
    (addTimeBlockCheck ([] : List TimeBlock) 20 (43/2) = PlacementCheck.outOfBounds ↔
      (21:ℚ) < 43/2) ∧
    addTimeBlock ⟨[], [], 0⟩ ⟨"t1", "A", 90, "c"⟩ 20 (43/2) "b1" "s1" = ⟨[], [], 0⟩ :=
  ⟨(addTimeBlock_upper_bound_check ⟨[], [], 0⟩ ⟨"t1", "A", 90, "c"⟩ 20 (43/2) "b1" "s1").1,
    (addTimeBlock_upper_bound_check ⟨[], [], 0⟩ ⟨"t1", "A", 90, "c"⟩ 20 (43/2) "b1" "s1").2
      (by norm_num)⟩

/-- C6: evaluation at the failing input. On a state whose single block is
already completed, `completeTimeBlock` (line 175) is not a no-op: it leaves
the block set unchanged but increments `xp` from 50 to 100, awarding the
completion XP a second time — contradicting the spec and the guarded
duplicate `completeBlock` (line 1522). -/
theorem completeTimeBlock_double_award :
    (∀ b ∈ (⟨[], [⟨"b1", ⟨"t1", "Deep Work", 60, "bg-blue-500"⟩, 9, 10, true⟩], 50⟩ :
        ScheduleState).timeBlocks, b.completed = true) ∧
    (completeTimeBlock
        ⟨[], [⟨"b1", ⟨"t1", "Deep Work", 60, "bg-blue-500"⟩, 9, 10, true⟩], 50⟩
        "b1").timeBlocks =
      [⟨"b1", ⟨"t1", "Deep Work", 60, "bg-blue-500"⟩, 9, 10, true⟩] ∧
    (completeTimeBlock
        ⟨[], [⟨"b1", ⟨"t1", "Deep Work", 60, "bg-blue-500"⟩, 9, 10, true⟩], 50⟩
        "b1").xp = 100 := by
  refine ⟨?_, ?_, ?_⟩ <;> with_unfolding_all decide

/-- C7: for every state, `progressPercentage` is
`completedBlocks / totalBlocks * 100` when `totalBlocks > 0` and `0` when
`totalBlocks = 0`, and `isPerfectDay` holds iff `totalBlocks > 0` and every
block is completed. -/
theorem derived_metrics_spec :
    ∀ st : ScheduleState,
      (0 < totalBlocks st →
        progressPercentage st = (completedBlocks st : ℚ) / (totalBlocks st : ℚ) * 100) ∧
      (totalBlocks st = 0 → progressPercentage st = 0) ∧
      (isPerfectDay st = true ↔
        0 < totalBlocks st ∧ ∀ b ∈ st.timeBlocks, b.completed = true) := by
  intro st
  refine ⟨fun h => by rw [progressPercentage, if_pos h],
    fun h => by rw [progressPercentage, if_neg (by omega)], ?_⟩
  rw [isPerfectDay, Bool.and_eq_true, decide_eq_true_eq, beq_iff_eq,
    completedBlocks_eq_iff]

/-- C7 witness: a one-block completed state and the empty state. -/
theorem derived_metrics_spec_witness :
    progressPercentage ⟨[], [⟨"b1", ⟨"t1", "A", 60, "c"⟩, 9, 10, true⟩], 50⟩ =
        ((completedBlocks ⟨[], [⟨"b1", ⟨"t1", "A", 60, "c"⟩, 9, 10, true⟩], 50⟩ : ℚ) /
          (totalBlocks ⟨[], [⟨"b1", ⟨"t1", "A", 60, "c"⟩, 9, 10, true⟩], 50⟩ : ℚ) * 100) ∧
      progressPercentage ⟨[], [], 0⟩ = 0 ∧
      isPerfectDay ⟨[], [⟨"b1", ⟨"t1", "A", 60, "c"⟩, 9, 10, true⟩], 50⟩ = true :=
  ⟨(derived_metrics_spec ⟨[], [⟨"b1", ⟨"t1", "A", 60, "c"⟩, 9, 10, true⟩], 50⟩).1
      (by with_unfolding_all decide),
    (derived_metrics_spec ⟨[], [], 0⟩).2.1 (by with_unfolding_all decide),
    (derived_metrics_spec ⟨[], [⟨"b1", ⟨"t1", "A", 60, "c"⟩, 9, 10, true⟩], 50⟩).2.2.mpr
      ⟨by with_unfolding_all decide, by with_unfolding_all decide⟩⟩

/-- C8: `deleteTimeBlock` on an absent id is a no-op; on an existing block
it removes the block, appends the block's task back to the end of the pool,
and sets `xp` to `max(0, xp − 50)` exactly when the block was completed —
so `xp` never becomes negative. -/
theorem deleteTimeBlock_spec :
    ∀ (st : ScheduleState) (id : String),
      ((∀ b ∈ st.timeBlocks, b.id ≠ id) → deleteTimeBlock st id = st) ∧
      (∀ block : TimeBlock, st.timeBlocks.find? (fun b => b.id == id) = some block →
        (deleteTimeBlock st id).timeBlocks = st.timeBlocks.filter (fun b => b.id != id) ∧
        (deleteTimeBlock st id).tasks = st.tasks ++ [block.task] ∧
        (deleteTimeBlock st id).xp =
          (if block.completed then max 0 (st.xp - 50) else st.xp)) ∧
      (0 ≤ st.xp → 0 ≤ (deleteTimeBlock st id).xp) := by
  intro st id
  refine ⟨?_, ?_, ?_⟩
  · intro h
    exact deleteTimeBlock_of_none st id
      (List.find?_eq_none.mpr fun x hx => by simp [h x hx])
  · intro block hf
    rw [deleteTimeBlock_of_find st id block hf]
    exact ⟨rfl, rfl, rfl⟩
  · intro hxp
    cases hf : st.timeBlocks.find? (fun b => b.id == id) with
    | none => rw [deleteTimeBlock_of_none st id hf]; exact hxp
    | some block =>
        rw [deleteTimeBlock_of_find st id block hf]
        dsimp only
        split
        · exact le_max_left 0 _
        · exact hxp

/-- C8 witness: the no-op branch on an empty block set and the deletion of
a completed block at xp 50. -/
theorem deleteTimeBlock_spec_witness :
    deleteTimeBlock ⟨[], [], 7⟩ "z" = ⟨[], [], 7⟩ ∧
      (deleteTimeBlock ⟨[⟨"t0", "B", 30, "c"⟩],
          [⟨"b1", ⟨"s1", "A", 60, "c"⟩, 9, 10, true⟩], 50⟩ "b1").tasks =
        [⟨"t0", "B", 30, "c"⟩] ++ [⟨"s1", "A", 60, "c"⟩] ∧
      (0:ℤ) ≤ (deleteTimeBlock ⟨[⟨"t0", "B", 30, "c"⟩],
          [⟨"b1", ⟨"s1", "A", 60, "c"⟩, 9, 10, true⟩], 50⟩ "b1").xp :=
  ⟨(deleteTimeBlock_spec ⟨[], [], 7⟩ "z").1 (by simp),
    ((deleteTimeBlock_spec ⟨[⟨"t0", "B", 30, "c"⟩],
          [⟨"b1", ⟨"s1", "A", 60, "c"⟩, 9, 10, true⟩], 50⟩ "b1").2.1
        ⟨"b1", ⟨"s1", "A", 60, "c"⟩, 9, 10, true⟩ (by with_unfolding_all decide)).2.1,
    (deleteTimeBlock_spec ⟨[⟨"t0", "B", 30, "c"⟩],
          [⟨"b1", ⟨"s1", "A", 60, "c"⟩, 9, 10, true⟩], 50⟩ "b1").2.2 (by decide)⟩

/-- C5: placing a pooled task removes exactly one pool entry and adds
exactly one block; deleting that block removes exactly one block and
restores exactly one pool entry carrying the original title, duration and
color under a fresh id, so pool size plus block count is invariant across
the place-then-delete round trip. -/
theorem place_then_delete_round_trip :
    ∀ (st : ScheduleState) (t : Task) (s e : ℚ) (bId tId : String),
      st.tasks.countP (fun x => x.id == t.id) = 1 →
      addTimeBlockCheck st.timeBlocks s e = PlacementCheck.ok →
      (∀ b ∈ st.timeBlocks, b.id ≠ bId) →
      tId ≠ t.id →
      (addTimeBlock st t s e bId tId).tasks.length + 1 = st.tasks.length ∧
      (addTimeBlock st t s e bId tId).timeBlocks.length = st.timeBlocks.length + 1 ∧
      (deleteTimeBlock (addTimeBlock st t s e bId tId) bId).timeBlocks.length + 1 =
        (addTimeBlock st t s e bId tId).timeBlocks.length ∧
      (∃ restored : Task,
        (deleteTimeBlock (addTimeBlock st t s e bId tId) bId).tasks =
          (addTimeBlock st t s e bId tId).tasks ++ [restored] ∧
        restored.title = t.title ∧ restored.duration = t.duration ∧
        restored.color = t.color ∧ restored.id ≠ t.id) ∧
      (deleteTimeBlock (addTimeBlock st t s e bId tId) bId).tasks.length +
          (deleteTimeBlock (addTimeBlock st t s e bId tId) bId).timeBlocks.length =
        st.tasks.length + st.timeBlocks.length := by
  intro st t s e bId tId h1 h2 h3 h4
  have hadd := addTimeBlock_of_ok st t s e bId tId h2
  have htl : (st.tasks.filter fun x => x.id != t.id).length + 1 = st.tasks.length := by
    simpa [bne] using
      length_filter_not_of_countP_eq_one st.tasks (fun x => x.id == t.id) h1
  have hfind : ((st.timeBlocks ++
      [serverCreateBlock bId tId t.title t.color t.duration s e]).find?
        (fun b => b.id == bId)) =
      some (serverCreateBlock bId tId t.title t.color t.duration s e) := by
    rw [List.find?_append, List.find?_eq_none.mpr (fun x hx => by simp [h3 x hx])]
    simp [serverCreateBlock]
  have hfilter : ((st.timeBlocks ++
      [serverCreateBlock bId tId t.title t.color t.duration s e]).filter
        (fun b => b.id != bId)) = st.timeBlocks := by
    rw [List.filter_append,
      List.filter_eq_self.mpr (fun a ha => by simp [bne, h3 a ha])]
    simp [serverCreateBlock]
  have hdel := deleteTimeBlock_of_find (addTimeBlock st t s e bId tId) bId
    (serverCreateBlock bId tId t.title t.color t.duration s e)
    (by rw [hadd]; exact hfind)
  rw [hadd] at hdel ⊢
  rw [hdel]
  dsimp only
  rw [hfilter]
  refine ⟨htl, by simp, by simp, ⟨⟨tId, t.title, t.duration, t.color⟩, rfl, rfl, rfl, rfl, h4⟩, ?_⟩
  rw [List.length_append]
  dsimp only [List.length_cons, List.length_nil]
  omega

/-- C5 witness: place "Deep Work" at [9, 10) and delete the created block. -/
theorem place_then_delete_round_trip_witness :
    (addTimeBlock ⟨[⟨"t1", "Deep Work", 60, "bg-blue-500"⟩], [], 0⟩
        ⟨"t1", "Deep Work", 60, "bg-blue-500"⟩ 9 10 "b1" "s1").tasks.length + 1 = 1 ∧
      (addTimeBlock ⟨[⟨"t1", "Deep Work", 60, "bg-blue-500"⟩], [], 0⟩
        ⟨"t1", "Deep Work", 60, "bg-blue-500"⟩ 9 10 "b1" "s1").timeBlocks.length = 0 + 1 ∧
      (deleteTimeBlock (addTimeBlock ⟨[⟨"t1", "Deep Work", 60, "bg-blue-500"⟩], [], 0⟩
          ⟨"t1", "Deep Work", 60, "bg-blue-500"⟩ 9 10 "b1" "s1") "b1").timeBlocks.length + 1 =
        (addTimeBlock ⟨[⟨"t1", "Deep Work", 60, "bg-blue-500"⟩], [], 0⟩
          ⟨"t1", "Deep Work", 60, "bg-blue-500"⟩ 9 10 "b1" "s1").timeBlocks.length ∧
      (∃ restored : Task,
        (deleteTimeBlock (addTimeBlock ⟨[⟨"t1", "Deep Work", 60, "bg-blue-500"⟩], [], 0⟩
            ⟨"t1", "Deep Work", 60, "bg-blue-500"⟩ 9 10 "b1" "s1") "b1").tasks =
          (addTimeBlock ⟨[⟨"t1", "Deep Work", 60, "bg-blue-500"⟩], [], 0⟩
            ⟨"t1", "Deep Work", 60, "bg-blue-500"⟩ 9 10 "b1" "s1").tasks ++ [restored] ∧
        restored.title = "Deep Work" ∧ restored.duration = 60 ∧
        restored.color = "bg-blue-500" ∧ restored.id ≠ "t1") ∧
      (deleteTimeBlock (addTimeBlock ⟨[⟨"t1", "Deep Work", 60, "bg-blue-500"⟩], [], 0⟩
          ⟨"t1", "Deep Work", 60, "bg-blue-500"⟩ 9 10 "b1" "s1") "b1").tasks.length +
        (deleteTimeBlock (addTimeBlock ⟨[⟨"t1", "Deep Work", 60, "bg-blue-500"⟩], [], 0⟩
          ⟨"t1", "Deep Work", 60, "bg-blue-500"⟩ 9 10 "b1" "s1") "b1").timeBlocks.length =
        1 + 0 :=
  place_then_delete_round_trip ⟨[⟨"t1", "Deep Work", 60, "bg-blue-500"⟩], [], 0⟩
    ⟨"t1", "Deep Work", 60, "bg-blue-500"⟩ 9 10 "b1" "s1"
    (by with_unfolding_all decide) (by with_unfolding_all decide) (by simp)
    (by decide)

theorem padStart2_length {s : String} (h1 : 1 ≤ s.length) (h2 : s.length ≤ 2) :
    (padStart2 s).length = 2 := by
  rw [padStart2]
  split
  · rw [String.length_append]
    have : (String.mk (List.replicate (2 - s.length) '0')).length =
        2 - s.length := by
      rw [show (String.mk (List.replicate (2 - s.length) '0')).length =
          (List.replicate (2 - s.length) '0').length from rfl,
        List.length_replicate]
    omega
  · omega

theorem toString_int_length {n : ℤ} (h0 : 0 ≤ n) (h99 : n ≤ 99) :
    1 ≤ (toString n).length ∧ (toString n).length ≤ 2 := by
  have hb : ∀ m : ℕ, m < 100 →
      1 ≤ (toString ((m : ℕ) : ℤ)).length ∧ (toString ((m : ℕ) : ℤ)).length ≤ 2 := by
    with_unfolding_all decide
  have hn : ((n.toNat : ℕ) : ℤ) = n := Int.toNat_of_nonneg h0
  have := hb n.toNat (by omega)
  rwa [hn] at this

/-- C10: `formatTime` computes the minutes field as `round((hour % 1) * 60)`
with no carry into the hour — 9.9999 renders as "09:60" — and on every
other input in [0, 24) the minutes field lies in [0, 59] with both fields
zero-padded to two digits. -/
theorem formatTime_spec :
    formatTime (99999/10000) = "09:60" ∧
    ∀ h : ℚ, 0 ≤ h → h < 24 → jsRound (jsMod1 h * 60) ≠ 60 →
      ∃ H M : String, formatTime h = H ++ ":" ++ M ∧ H.length = 2 ∧ M.length = 2 ∧
        0 ≤ jsRound (jsMod1 h * 60) ∧ jsRound (jsMod1 h * 60) ≤ 59 := by
  constructor
  · with_unfolding_all decide
  · intro h h0 h24 hne
    have hm := jsMod1_of_nonneg h0
    have hf0 : 0 ≤ jsMod1 h * 60 := by
      rw [hm]
      have := Int.fract_nonneg h
      linarith
    have hf60 : jsMod1 h * 60 < ((60:ℤ) : ℚ) := by
      rw [hm]
      have := Int.fract_lt_one h
      push_cast
      linarith
    have hr0 : 0 ≤ jsRound (jsMod1 h * 60) := jsRound_nonneg hf0
    have hr60 : jsRound (jsMod1 h * 60) ≤ 60 := jsRound_le_of_lt hf60
    have hr59 : jsRound (jsMod1 h * 60) ≤ 59 := by omega
    have hfl0 : 0 ≤ ⌊h⌋ := Int.floor_nonneg.mpr h0
    have hfl23 : ⌊h⌋ ≤ 23 := by
      have : ⌊h⌋ < (24 : ℤ) := Int.floor_lt.mpr (by push_cast; linarith)
      omega
    obtain ⟨hH1, hH2⟩ := toString_int_length hfl0 (by omega)
    obtain ⟨hM1, hM2⟩ := toString_int_length hr0 (by omega)
    exact ⟨padStart2 (toString ⌊h⌋), padStart2 (toString (jsRound (jsMod1 h * 60))),
      rfl, padStart2_length hH1 hH2, padStart2_length hM1 hM2, hr0, hr59⟩

/-- C10 witness: 9.37 renders with a two-digit hour and a two-digit minute
field below 60. -/
theorem formatTime_spec_witness :
    (0:ℚ) ≤ 937/100 ∧ (937/100 : ℚ) < 24 ∧ jsRound (jsMod1 (937/100) * 60) ≠ 60 ∧
      ∃ H M : String, formatTime (937/100) = H ++ ":" ++ M ∧ H.length = 2 ∧
        M.length = 2 ∧ 0 ≤ jsRound (jsMod1 (937/100) * 60) ∧
        jsRound (jsMod1 (937/100) * 60) ≤ 59 :=
  ⟨by norm_num, by norm_num, by with_unfolding_all decide,
    formatTime_spec.2 (937/100) (by norm_num) (by norm_num)
      (by with_unfolding_all decide)⟩

end TimeBlocking
